import Mathlib

/-!
Shallow embedding of the two HTTP API clients of this repository:
`TransactionServiceApi` (gnosis/safe/api/transaction_service_api.py) and
`BlockscoutClient` (gnosis/eth/clients/blockscout_client.py).

Modelling conventions:
* Python strings are sequences of Unicode code points, embedded as `List Char`.
* Python byte strings are embedded as `List Nat` (one `Nat` per byte).
* HTTP traffic is out of scope (external transport): every operation takes the
  HTTP response it would observe as an explicit argument.
* A Python function that can raise is embedded as `Except`; the distinguished
  `SafeAPIException` raised by the relay client is kept apart from other
  runtime errors (`KeyError`, `TypeError`, ...) so that theorems can speak
  about the relay error specifically.
* Cryptographic primitives (keccak, ECDSA signing) are out-of-scope external
  collaborators and appear as function parameters.
-/

/-- A Python string: a sequence of Unicode code points. -/
abbrev Str := List Char

/-- A Python byte string: a sequence of bytes. -/
abbrev Bytes := List Nat

/-- The whitespace characters removed by Python's `str.strip()`
(space, tab, newline, carriage return, vertical tab, form feed). -/
def pyIsSpace (c : Char) : Bool :=
  c = ' ' || c = '\t' || c = '\n' || c = '\r' || c = '\x0b' || c = '\x0c'

/-- Python `str.strip()`: drop leading and trailing whitespace. -/
def pystrip (s : Str) : Str :=
  ((s.dropWhile pyIsSpace).reverse.dropWhile pyIsSpace).reverse

/-- Value of a single hexadecimal digit character, if it is one. -/
def hexDigitVal (c : Char) : Option Nat :=
  if '0' ≤ c ∧ c ≤ '9' then some (c.toNat - 48)
  else if 'a' ≤ c ∧ c ≤ 'f' then some (c.toNat - 87)
  else if 'A' ≤ c ∧ c ≤ 'F' then some (c.toNat - 55)
  else none

/-- Python `int(s, 16)` on the strings this client meets (optional surrounding
whitespace, optional `0x`/`0X` prefix, then hex digits); `none` models the
`ValueError` Python raises on anything else. -/
def int_base16 (s : Str) : Option Nat :=
  let t := pystrip s
  let t := if t.take 2 = ['0', 'x'] ∨ t.take 2 = ['0', 'X'] then t.drop 2 else t
  if t ≠ [] ∧ t.all (fun c => (hexDigitVal c).isSome)
  then some (t.foldl (fun a c => 16 * a + (hexDigitVal c).getD 0) 0)
  else none

/-- Numeric value of an address string, as used for sort keys: a total
stand-in for `int(x, 16)` (an address that Python could not parse, where
Python would raise, is given key `0`; the theorems below only ever rely on
the keys of the addresses they quantify over). -/
def addrKey (s : Str) : Nat := (int_base16 s).getD 0

/-- Lower-case hex character of a value below 16. -/
def hexChar : Nat → Char
  | 0 => '0' | 1 => '1' | 2 => '2' | 3 => '3' | 4 => '4' | 5 => '5'
  | 6 => '6' | 7 => '7' | 8 => '8' | 9 => '9' | 10 => 'a' | 11 => 'b'
  | 12 => 'c' | 13 => 'd' | 14 => 'e' | 15 => 'f' | _ => '?'

/-- Two lower-case hex characters of one byte. -/
def byteHex (b : Nat) : Str := [hexChar (b / 16 % 16), hexChar (b % 16)]

/-- `HexBytes(bs).hex()`: `0x`-prefixed lower-case hex rendering of a byte
string. -/
def bytes_hex (bs : Bytes) : Str := '0' :: 'x' :: bs.flatMap byteHex

/-- One signer's approval of a transaction, as stored in the relay service's
JSON reply: owner address, signature (the byte string its hex field denotes;
`HexBytes` normalisation of a byte string is the identity) and signature type
tag. -/
structure Confirmation where
  owner : Str
  signature : Bytes
  signatureType : Str
deriving DecidableEq, Repr

/-- Sort key of a confirmation: `lambda x: int(x["owner"], 16)`. -/
def confirmationKey (c : Confirmation) : Nat := addrKey c.owner

/-- A multisig transaction record as returned by the relay service
(`raw_tx` / `result` in the source), with the JSON fields this client reads,
already carried by the deserialization layer (out of scope per the spec) to
their denoted values: numeric strings to integers, hex strings to byte
strings, JSON `null`/empty to `none` or the empty byte string. -/
structure RawTx where
  signatures : Bytes
  confirmations : List Confirmation
  safe : Str
  «to» : Str
  value : Int
  data : Option Bytes
  operation : Int
  safeTxGas : Int
  baseGas : Int
  gasPrice : Int
  gasToken : Str
  refundReceiver : Str
  nonce : Int
  transactionHash : Option Bytes
deriving DecidableEq, Repr

/-- `TransactionServiceApi.parse_signatures`: if the `signatures` field is
populated (the transaction was executed) return it; otherwise, if there are
confirmations, join the signatures of the `EOA`-typed confirmations sorted by
the numeric value of the owner address (Python's `sorted` is stable, as is
`List.insertionSort` with a non-strict key order); otherwise fall off the end
(Python returns `None`). -/
def parse_signatures (raw_tx : RawTx) : Option Bytes :=
  if raw_tx.signatures ≠ [] then
    some raw_tx.signatures
  else if raw_tx.confirmations ≠ [] then
    some ((((raw_tx.confirmations.insertionSort
        (fun a b => confirmationKey a ≤ confirmationKey b)).filter
          (fun c => c.signatureType == "EOA".data)).map
            (fun c => c.signature)).flatten)
  else
    none

/-! ### Decimal rendering of a natural number (Python `str(totp)`) -/

/-- The decimal digit characters. -/
def digitChar : Nat → Char
  | 0 => '0' | 1 => '1' | 2 => '2' | 3 => '3' | 4 => '4'
  | 5 => '5' | 6 => '6' | 7 => '7' | 8 => '8' | 9 => '9' | _ => '?'

/-- Fuel-driven most-significant-first decimal digits of `n`. -/
def natStrAux : Nat → Nat → Str
  | 0, _ => []
  | fuel + 1, n =>
    if n = 0 then [] else natStrAux fuel (n / 10) ++ [digitChar (n % 10)]

/-- Python `str(n)` for a non-negative integer `n`. -/
def natStr (n : Nat) : Str := if n = 0 then ['0'] else natStrAux n n

/-- Decimal value of a digit string (used to show `natStr` is injective). -/
def natStrVal (s : Str) : Nat :=
  s.foldl (fun a c => 10 * a + (c.toNat - 48)) 0

/-- `TransactionServiceApi.create_delegate_message_hash`: keccak of the
delegate address concatenated with the decimal rendering of the current
one-hour time bucket (`int(time.time()) // 3600`).  The keccak primitive is
an out-of-scope external collaborator, taken as a parameter; `now` is the
integer POSIX time `int(time.time())`. -/
def create_delegate_message_hash {H : Type} (keccak : Str → H) (now : Nat)
    (delegate_address : Str) : H :=
  keccak (delegate_address ++ natStr (now / 3600))

/-! ### JSON values and the Python operations the clients apply to them -/

/-- A JSON value as Python's `json` layer delivers it to this code. -/
inductive PyVal where
  | vnull
  | vbool (b : Bool)
  | vint (n : Int)
  | vstr (s : Str)
  | vlist (xs : List PyVal)
  | vdict (fields : List (Str × PyVal))

/-- Python truthiness of a JSON value. -/
def PyVal.truthy : PyVal → Bool
  | .vnull => false
  | .vbool b => b
  | .vint n => decide (n ≠ 0)
  | .vstr s => decide (s ≠ [])
  | .vlist xs => !xs.isEmpty
  | .vdict fs => !fs.isEmpty

/-- Lookup in a Python dict (JSON object keys are unique, so first match). -/
def dictLookup (fields : List (Str × PyVal)) (k : Str) : Option PyVal :=
  match fields with
  | [] => none
  | (k', v) :: rest => if k' = k then some v else dictLookup rest k

/-- Python `k in d` for a dict `d`. -/
def hasKey (fields : List (Str × PyVal)) (k : Str) : Bool :=
  (dictLookup fields k).isSome

/-- Does `s` start with `p`? -/
def strHasPrefix : Str → Str → Bool
  | _, [] => true
  | [], _ :: _ => false
  | c :: rest, d :: ds => c = d && strHasPrefix rest ds

/-- Is `needle` a contiguous substring of `hay` (Python `needle in hay` on
strings)? -/
def strContainsSub (hay needle : Str) : Bool :=
  strHasPrefix hay needle ||
    match hay with
    | [] => false
    | _ :: rest => strContainsSub rest needle

/-- Python `k in v` for a string `k`: key test on dicts, membership on lists
(a string compares equal only to an equal string), substring test on strings,
`TypeError` otherwise. -/
def pyContains (k : Str) (v : PyVal) : Except Str Bool :=
  match v with
  | .vdict fs => .ok (hasKey fs k)
  | .vlist xs =>
    .ok (xs.any (fun x => match x with | .vstr s => decide (s = k) | _ => false))
  | .vstr s => .ok (strContainsSub s k)
  | _ => .error "TypeError".data

/-- Python `v.get(k, dflt)`: only dicts have `.get` (anything else raises
`AttributeError`). -/
def pyGet (v : PyVal) (k : Str) (dflt : PyVal) : Except Str PyVal :=
  match v with
  | .vdict fs => .ok ((dictLookup fs k).getD dflt)
  | _ => .error "AttributeError".data

/-- Python `v[k]` for a string key: `KeyError` when the key is missing,
`TypeError` when `v` is not a dict. -/
def pyIndex (v : PyVal) (k : Str) : Except Str PyVal :=
  match v with
  | .vdict fs =>
    match dictLookup fs k with
    | some x => .ok x
    | none => .error "KeyError".data
  | _ => .error "TypeError".data

/-! ### The relay client (`TransactionServiceApi`) -/

/-- A Python exception as raised by the relay client's operations: the
`SafeAPIException` the client raises itself on a non-2xx response, kept apart
from ordinary runtime errors (`KeyError`, `AttributeError`, `TypeError`). -/
inductive PyExc where
  | safeAPIException (msg : Str)
  | runtimeError (kind : Str)
deriving DecidableEq, Repr

/-- An HTTP response as the relay client observes it: `response.ok`
(2xx status), `response.content` (raw body) and `response.json()` (the parsed
body; parsing is the out-of-scope transport layer's job). -/
structure ApiResponse where
  ok : Bool
  content : Str
  body : PyVal

/-- The response to `GET /api/v1/multisig-transactions/{tx_hash}/`, whose JSON
body this client reads field by field; the body is carried as the structured
`RawTx` record. -/
structure TxApiResponse where
  ok : Bool
  content : Str
  body : RawTx

/-- `TransactionServiceApi.get_balances`. -/
def get_balances (resp : ApiResponse) : Except PyExc PyVal :=
  if resp.ok = false then
    .error (.safeAPIException ("Cannot get balances: ".data ++ resp.content))
  else
    .ok resp.body

/-- `TransactionServiceApi.get_transactions`:
`response.json().get("results", [])`. -/
def get_transactions (resp : ApiResponse) : Except PyExc PyVal :=
  if resp.ok = false then
    .error (.safeAPIException ("Cannot get transactions: ".data ++ resp.content))
  else
    match resp.body with
    | .vdict fs => .ok ((dictLookup fs "results".data).getD (.vlist []))
    | _ => .error (.runtimeError "AttributeError".data)

/-- `TransactionServiceApi.get_delegates`:
`response.json().get("results", [])`. -/
def get_delegates (resp : ApiResponse) : Except PyExc PyVal :=
  if resp.ok = false then
    .error (.safeAPIException ("Cannot get delegates: ".data ++ resp.content))
  else
    match resp.body with
    | .vdict fs => .ok ((dictLookup fs "results".data).getD (.vlist []))
    | _ => .error (.runtimeError "AttributeError".data)

/-- The executable multisig transaction object (`SafeTx`), an external
collaborator "whose fields are sent and parsed here" (spec §1): a plain
record of the constructor arguments `get_safe_transaction` passes plus the
`tx_hash` attribute it may attach afterwards. -/
structure SafeTx where
  safe_address : Str
  «to» : Str
  value : Int
  data : Bytes
  operation : Int
  safe_tx_gas : Int
  base_gas : Int
  gas_price : Int
  gas_token : Str
  refund_receiver : Str
  signatures : Bytes
  safe_nonce : Int
  chain_id : Nat
  tx_hash : Option Bytes

/-- `TransactionServiceApi.get_safe_transaction`: on a non-2xx response raise
`SafeAPIException` with the response body embedded; otherwise rebuild the
`SafeTx` from the record's fields, with the aggregated signatures
(`signatures if signatures else b""`), attach the executed transaction hash
when it is truthy, and return the pair. -/
def get_safe_transaction (chain_id : Nat) (safe_tx_hash : Bytes)
    (resp : TxApiResponse) : Except PyExc (SafeTx × Option Bytes) :=
  if resp.ok = false then
    .error (.safeAPIException ("Cannot get transaction with safe-tx-hash=".data
      ++ bytes_hex safe_tx_hash ++ ": ".data ++ resp.content))
  else
    let result := resp.body
    let signatures := parse_signatures result
    let safe_tx : SafeTx :=
      { safe_address := result.safe
        «to» := result.to
        value := result.value
        data := (result.data).getD []
        operation := result.operation
        safe_tx_gas := result.safeTxGas
        base_gas := result.baseGas
        gas_price := result.gasPrice
        gas_token := result.gasToken
        refund_receiver := result.refundReceiver
        signatures := match signatures with
          | some s => if s = [] then [] else s
          | none => []
        safe_nonce := result.nonce
        chain_id := chain_id
        tx_hash := match result.transactionHash with
          | some bs => if bs = [] then none else some bs
          | none => none }
    .ok (safe_tx, result.transactionHash)

/-- The body POSTed to `/confirmations/`:
`{"signature": HexBytes(signatures).hex()}`. -/
structure ConfirmationPayload where
  signature : Str
deriving DecidableEq, Repr

/-- `TransactionServiceApi.post_signatures`; on success the observable effect
is the POSTed payload, returned here. -/
def post_signatures (safe_tx_hash : Bytes) (signatures : Bytes)
    (resp : ApiResponse) : Except PyExc ConfirmationPayload :=
  if resp.ok = false then
    .error (.safeAPIException
      ("Cannot post signatures for tx with safe-tx-hash=".data
        ++ bytes_hex safe_tx_hash ++ ": ".data ++ resp.content))
  else
    .ok { signature := bytes_hex signatures }

/-- The body POSTed to register a delegate. -/
structure DelegatePayload where
  safe : Str
  delegate : Str
  signature : Str
  label : Str
deriving DecidableEq, Repr

/-- `TransactionServiceApi.add_delegate`: sign the time-boxed hash of the
delegate address and POST `{safe, delegate, signature, label}`.  `keccak` and
`sign` (the signer account's `signHash(...).signature.hex()`) are the
out-of-scope cryptographic collaborators; `now` is `int(time.time())`. -/
def add_delegate {H : Type} (keccak : Str → H) (sign : H → Str) (now : Nat)
    (safe_address delegate_address label : Str) (resp : ApiResponse) :
    Except PyExc DelegatePayload :=
  let hash_to_sign := create_delegate_message_hash keccak now delegate_address
  let signature := sign hash_to_sign
  if resp.ok = false then
    .error (.safeAPIException ("Cannot add delegate: ".data ++ resp.content))
  else
    .ok { safe := safe_address, delegate := delegate_address,
          signature := signature, label := label }

/-- The body of the DELETE request removing a delegate. -/
structure RemoveDelegatePayload where
  signature : Str
deriving DecidableEq, Repr

/-- `TransactionServiceApi.remove_delegate`: same hash/signing scheme as
`add_delegate`, DELETE with the signature as payload. -/
def remove_delegate {H : Type} (keccak : Str → H) (sign : H → Str) (now : Nat)
    (safe_address delegate_address : Str) (resp : ApiResponse) :
    Except PyExc RemoveDelegatePayload :=
  let hash_to_sign := create_delegate_message_hash keccak now delegate_address
  let signature := sign hash_to_sign
  if resp.ok = false then
    .error (.safeAPIException ("Cannot remove delegate: ".data ++ resp.content))
  else
    .ok { signature := signature }

/-- The placeholder sender used when the transaction has no signers
(`random_sender` in the source). -/
def random_sender : Str := "0x0000000000000000000000000000000000000002".data

/-- The JSON body POSTed by `post_transaction`. -/
structure TxPayload where
  «to» : Str
  value : Int
  data : Option Str
  operation : Int
  gasToken : Str
  safeTxGas : Int
  baseGas : Int
  gasPrice : Int
  refundReceiver : Str
  nonce : Int
  contractTransactionHash : Str
  sender : Str
  signature : Option Str
  origin : Str

/-- The body `TransactionServiceApi.post_transaction` builds from a `SafeTx`.
`sorted_signers` and `safe_tx_hash` are computed properties of the external
`SafeTx` object (signature recovery and EIP-712 hashing, out-of-scope
cryptography), supplied as inputs; the spec gives that `sorted_signers` is
the signer list in ascending numeric address order. -/
def post_transaction_data (safe_tx : SafeTx) (sorted_signers : List Str)
    (safe_tx_hash : Bytes) : TxPayload :=
  let sender := match sorted_signers with
    | [] => random_sender
    | s :: _ => s
  { «to» := safe_tx.to
    value := safe_tx.value
    data := if safe_tx.data = [] then none else some (bytes_hex safe_tx.data)
    operation := safe_tx.operation
    gasToken := safe_tx.gas_token
    safeTxGas := safe_tx.safe_tx_gas
    baseGas := safe_tx.base_gas
    gasPrice := safe_tx.gas_price
    refundReceiver := safe_tx.refund_receiver
    nonce := safe_tx.safe_nonce
    contractTransactionHash := bytes_hex safe_tx_hash
    sender := sender
    signature := if safe_tx.signatures = [] then none
      else some (bytes_hex safe_tx.signatures)
    origin := "Safe-CLI".data }

/-- `TransactionServiceApi.post_transaction`: POST the serialized transaction,
raise `SafeAPIException` embedding the response body on a non-2xx reply;
on success the observable effect is the POSTed payload, returned here. -/
def post_transaction (safe_tx : SafeTx) (sorted_signers : List Str)
    (safe_tx_hash : Bytes) (resp : ApiResponse) : Except PyExc TxPayload :=
  if resp.ok = false then
    .error (.safeAPIException ("Error posting transaction: ".data ++ resp.content))
  else
    .ok (post_transaction_data safe_tx sorted_signers safe_tx_hash)

/-! ### The explorer client (`BlockscoutClient`) -/

/-- An HTTP response as the Blockscout client observes it (`response.ok` and
the parsed JSON body `response.json()`). -/
structure BsResponse where
  ok : Bool
  body : PyVal

/-- `BlockscoutClient._do_request`: `None` on a non-2xx response, otherwise
the parsed JSON body. -/
def _do_request (resp : BsResponse) : Option PyVal :=
  if resp.ok = false then none else some resp.body

/-- The external `ContractMetadata` record (spec: name, decoded ABI, proxy
flag).  The ABI decoder `json.loads` is the out-of-scope JSON layer, so the
decoded ABI type is a parameter; the name field is passed through without
conversion. -/
structure ContractMetadata (A : Type) where
  name : PyVal
  abi : A
  is_proxy : Bool

/-- `BlockscoutClient.get_contract_metadata`: query the explorer, and return
metadata only when the chained guard
`result and "error" not in result and result.get("data", {}).get("address", {})
and result["data"]["address"]["smartContract"]` passes; any Python runtime
error raised along the way (non-dict payloads, missing keys, non-string ABI)
is an `Except.error`. -/
def get_contract_metadata {A : Type} (json_loads : Str → A)
    (resp : BsResponse) : Except Str (Option (ContractMetadata A)) :=
  match _do_request resp with
  | none => .ok none
  | some result =>
    if result.truthy = false then .ok none else
    match pyContains "error".data result with
    | .error e => .error e
    | .ok true => .ok none
    | .ok false =>
      match pyGet result "data".data (.vdict []) with
      | .error e => .error e
      | .ok datav =>
        match pyGet datav "address".data (.vdict []) with
        | .error e => .error e
        | .ok addrv =>
          if addrv.truthy = false then .ok none else
          match pyIndex result "data".data with
          | .error e => .error e
          | .ok dv =>
            match pyIndex dv "address".data with
            | .error e => .error e
            | .ok av =>
              match pyIndex av "smartContract".data with
              | .error e => .error e
              | .ok sc =>
                if sc.truthy = false then .ok none else
                match pyIndex sc "name".data with
                | .error e => .error e
                | .ok namev =>
                  match pyIndex sc "abi".data with
                  | .error e => .error e
                  | .ok abiv =>
                    match abiv with
                    | .vstr s => .ok (some ⟨namev, json_loads s, false⟩)
                    | _ => .error "TypeError".data

/-! ### The decoded-call-data formatter (`data_decoded_to_text`) -/

/-!
The decoded call data the formatter walks, shaped after the JSON the relay
service produces:
* `DecodedData.empty` is a falsy input (`{}` or `None`, e.g. the default in
  `decoded_value.get("decodedData", {})`);
* `DecodedData.node method parameters` is a decoded call
  (`{"method": ..., "parameters": [...]}`; a missing `parameters` key yields
  `[]` through `data_decoded.get("parameters", [])`);
* a `Param` carries `str(parameter["value"])` (the Python string rendering of
  the parameter value) and, when the `decodedValue` key is present, its list
  of nested items;
* a `DVItem` carries the item's `decodedData` (with `DecodedData.empty` for
  `decoded_value.get("decodedData", {})` when the key is missing or falsy).
-/
mutual

inductive DecodedData where
  | empty : DecodedData
  | node : Str → List Param → DecodedData

inductive Param where
  | mk : Str → Option (List DVItem) → Param

inductive DVItem where
  | mk : DecodedData → DVItem

end

/-- `str(parameter["value"])`. -/
def Param.value : Param → Str
  | .mk v _ => v

/-- The parameter's `decodedValue` list, when the key is present. -/
def Param.decodedValue : Param → Option (List DVItem)
  | .mk _ dv => dv

/-- `decoded_value.get("decodedData", {})`. -/
def DVItem.decodedData : DVItem → DecodedData
  | .mk dd => dd

/-- Python `sep.join(strings)`. -/
def joinSep (sep : Str) : List Str → Str
  | [] => []
  | [s] => s
  | s :: rest => s ++ sep ++ joinSep sep rest

/-- The join step of `"\n - ".join([...])` over the recursion results: a
`None` among them is the `TypeError` Python raises for a non-string item. -/
def seqStrings : List (Option Str) → Except Str (List Str)
  | [] => .ok []
  | none :: _ => .error "TypeError".data
  | some s :: rest =>
    match seqStrings rest with
    | .error e => .error e
    | .ok ss => .ok (s :: ss)

mutual

/-- `TransactionServiceApi.data_decoded_to_text`: `None` on falsy input;
otherwise the nested blocks accumulated by the `for` loop
(`text += method + ":\n - " + "\n - ".join([...]) + "\n"`), stripped, when
any parameter has a `decodedValue`; otherwise
`method + ": " + ",".join(values)`. -/
def data_decoded_to_text : DecodedData → Except Str (Option Str)
  | .empty => .ok none
  | .node method parameters =>
    match renderParams method parameters with
    | .error e => .error e
    | .ok text =>
      if text ≠ [] then .ok (some (pystrip text))
      else .ok (some (method ++ (':' :: ' ' :: [])
        ++ joinSep [','] (parameters.map Param.value)))

/-- The `for parameter in parameters` loop of `data_decoded_to_text`: each
parameter owning a `decodedValue` appends
`method + ":\n - " + "\n - ".join(nested renderings) + "\n"`. -/
def renderParams (method : Str) : List Param → Except Str Str
  | [] => .ok []
  | .mk _ none :: rest => renderParams method rest
  | .mk _ (some items) :: rest =>
    match renderItems items with
    | .error e => .error e
    | .ok opts =>
      match seqStrings opts with
      | .error e => .error e
      | .ok renders =>
        match renderParams method rest with
        | .error e => .error e
        | .ok tail =>
          .ok (method ++ (':' :: '\n' :: ' ' :: '-' :: ' ' :: [])
            ++ joinSep ('\n' :: ' ' :: '-' :: ' ' :: []) renders
            ++ ('\n' :: []) ++ tail)

/-- The list comprehension
`[cls.data_decoded_to_text(dv.get("decodedData", {})) for dv in ...]`. -/
def renderItems : List DVItem → Except Str (List (Option Str))
  | [] => .ok []
  | .mk dd :: rest =>
    match data_decoded_to_text dd with
    | .error e => .error e
    | .ok r =>
      match renderItems rest with
      | .error e => .error e
      | .ok rs => .ok (r :: rs)

end

/-! ### Concrete example inputs used by witnesses and counterexamples -/

/-- The spec's worked aggregation example: owners `0x02`, `0x01`, `0x03` with
signatures `b`, `a`, `c` and types `EOA`, `EOA`, `CONTRACT`. -/
def exampleConfirmations : List Confirmation :=
  [⟨"0x02".data, [0xbb], "EOA".data⟩,
   ⟨"0x01".data, [0xaa], "EOA".data⟩,
   ⟨"0x03".data, [0xcc], "CONTRACT".data⟩]

/-- A transaction record with the given signatures field and confirmations
(the other fields are arbitrary concrete values). -/
def exampleRawTx (sigs : Bytes) (confs : List Confirmation) : RawTx :=
  { signatures := sigs, confirmations := confs, safe := "0x05".data,
    «to» := "0x06".data, value := 0, data := none, operation := 0,
    safeTxGas := 0, baseGas := 0, gasPrice := 0, gasToken := "0x00".data,
    refundReceiver := "0x00".data, nonce := 0, transactionHash := none }

/-- A concrete transaction object (the field values are arbitrary). -/
def exampleSafeTx : SafeTx :=
  { safe_address := "0x05".data, «to» := "0x06".data, value := 1, data := [],
    operation := 0, safe_tx_gas := 0, base_gas := 0, gas_price := 0,
    gas_token := "0x00".data, refund_receiver := "0x00".data, signatures := [],
    safe_nonce := 0, chain_id := 1, tx_hash := none }

/-- A parameter list with one nested decoded call
(`[{"value": 0, "decodedValue": [{"decodedData":
{"method": "transfer", "parameters": [{"value": "100"}]}}]}]`). -/
def exampleNestedParams : List Param :=
  [.mk "0".data (some [.mk (.node "transfer".data [.mk "100".data none])])]

/-! ## Theorems -/

/-- C1.  For a transaction record with empty `signatures` and non-empty
confirmations (with pairwise distinct owner keys, as the relay service
guarantees), the aggregate is the concatenation of the signatures of exactly
the `EOA`-typed confirmations, in ascending numeric owner-address order,
one per confirming owner. -/
theorem spec_c1_signature_aggregation (raw : RawTx)
    (hsig : raw.signatures = [])
    (hconf : raw.confirmations ≠ [])
    (hdist : raw.confirmations.Pairwise
      (fun a b => confirmationKey a ≠ confirmationKey b)) :
    ∃ l : List Confirmation,
      parse_signatures raw = some ((l.map (fun c => c.signature)).flatten) ∧
      l.Perm (raw.confirmations.filter (fun c => c.signatureType == "EOA".data)) ∧
      l.Pairwise (fun a b => confirmationKey a < confirmationKey b) ∧
      l.Pairwise (fun a b => a.owner ≠ b.owner) := by
  haveI hTotal : IsTotal Confirmation (fun a b => confirmationKey a ≤ confirmationKey b) :=
    ⟨fun a b => Nat.le_total _ _⟩
  haveI hTrans : IsTrans Confirmation (fun a b => confirmationKey a ≤ confirmationKey b) :=
    ⟨fun _ _ _ hab hbc => Nat.le_trans hab hbc⟩
  have hle : ((raw.confirmations.insertionSort
      (fun a b => confirmationKey a ≤ confirmationKey b)).filter
        (fun c => c.signatureType == "EOA".data)).Pairwise
      (fun a b => confirmationKey a ≤ confirmationKey b) :=
    (List.sorted_insertionSort
      (fun a b => confirmationKey a ≤ confirmationKey b)
        raw.confirmations).sublist (List.filter_sublist _)
  have hne : ((raw.confirmations.insertionSort
      (fun a b => confirmationKey a ≤ confirmationKey b)).filter
        (fun c => c.signatureType == "EOA".data)).Pairwise
      (fun a b => confirmationKey a ≠ confirmationKey b) :=
    (((List.perm_insertionSort
      (fun a b => confirmationKey a ≤ confirmationKey b)
        raw.confirmations).pairwise_iff
          (fun {_ _} h => Ne.symm h)).2 hdist).sublist (List.filter_sublist _)
  refine ⟨(raw.confirmations.insertionSort
      (fun a b => confirmationKey a ≤ confirmationKey b)).filter
        (fun c => c.signatureType == "EOA".data), ?_, ?_, ?_, ?_⟩
  · unfold parse_signatures
    rw [hsig]
    simp [hconf]
  · exact (List.perm_insertionSort _ raw.confirmations).filter _
  · exact (hle.and hne).imp (fun h => Nat.lt_of_le_of_ne h.1 h.2)
  · exact hne.imp (fun h he => h (by rw [confirmationKey, confirmationKey, he]))

/-- Witness for C1: the spec's worked example (`0x01` before `0x02`, the
`CONTRACT`-typed `0x03` excluded) yields `a || b`. -/
theorem spec_c1_witness :
    ((exampleRawTx [] exampleConfirmations).signatures = [] ∧
      (exampleRawTx [] exampleConfirmations).confirmations ≠ [] ∧
      (exampleRawTx [] exampleConfirmations).confirmations.Pairwise
        (fun a b => confirmationKey a ≠ confirmationKey b)) ∧
    parse_signatures (exampleRawTx [] exampleConfirmations) = some [0xaa, 0xbb] ∧
    (∃ l : List Confirmation,
      parse_signatures (exampleRawTx [] exampleConfirmations)
        = some ((l.map (fun c => c.signature)).flatten) ∧
      l.Perm ((exampleRawTx [] exampleConfirmations).confirmations.filter
        (fun c => c.signatureType == "EOA".data)) ∧
      l.Pairwise (fun a b => confirmationKey a < confirmationKey b) ∧
      l.Pairwise (fun a b => a.owner ≠ b.owner)) :=
  ⟨⟨rfl, by decide, by decide⟩, by decide,
    spec_c1_signature_aggregation (exampleRawTx [] exampleConfirmations)
      rfl (by decide) (by decide)⟩

/-- C2.  With empty `signatures` and no confirmations the helper falls off
the end (`None`), and the signature aggregate attached to the transaction
object rebuilt by `get_safe_transaction` is the empty byte string
(`signatures if signatures else b""`), not an absent value. -/
theorem spec_c2_empty_aggregate (raw : RawTx) (resp : TxApiResponse)
    (chain_id : Nat) (safe_tx_hash : Bytes)
    (hsig : raw.signatures = []) (hconf : raw.confirmations = [])
    (hok : resp.ok = true) (hbody : resp.body = raw) :
    parse_signatures raw = none ∧
    ∃ tx txh, get_safe_transaction chain_id safe_tx_hash resp = .ok (tx, txh) ∧
      tx.signatures = [] := by
  have hnone : parse_signatures raw = none := by
    unfold parse_signatures
    rw [hsig, hconf]
    simp
  refine ⟨hnone, ?_⟩
  unfold get_safe_transaction
  rw [hok]
  simp only [Bool.true_eq_false, if_false, hbody, hnone]
  exact ⟨_, _, rfl, rfl⟩

/-- Witness for C2 at a concrete record and response. -/
theorem spec_c2_witness :
    ((exampleRawTx [] []).signatures = [] ∧ (exampleRawTx [] []).confirmations = [] ∧
      (TxApiResponse.mk true [] (exampleRawTx [] [])).ok = true ∧
      (TxApiResponse.mk true [] (exampleRawTx [] [])).body = exampleRawTx [] []) ∧
    (parse_signatures (exampleRawTx [] []) = none ∧
      ∃ tx txh, get_safe_transaction 1 [0x01] (TxApiResponse.mk true [] (exampleRawTx [] []))
        = .ok (tx, txh) ∧ tx.signatures = []) :=
  ⟨⟨rfl, rfl, rfl, rfl⟩,
    spec_c2_empty_aggregate (exampleRawTx [] []) (TxApiResponse.mk true [] (exampleRawTx [] []))
      1 [0x01] rfl rfl rfl rfl⟩

/-- C3.  A populated `signatures` field is returned verbatim, whatever the
confirmations hold. -/
theorem spec_c3_signatures_verbatim (raw : RawTx)
    (hsig : raw.signatures ≠ []) :
    parse_signatures raw = some raw.signatures := by
  unfold parse_signatures
  rw [if_pos hsig]

/-- Witness for C3: a record whose `signatures` field is populated and whose
confirmations list nevertheless carries different signature bytes. -/
theorem spec_c3_witness :
    (exampleRawTx [0xde, 0xad] exampleConfirmations).signatures ≠ [] ∧
    parse_signatures (exampleRawTx [0xde, 0xad] exampleConfirmations)
      = some (exampleRawTx [0xde, 0xad] exampleConfirmations).signatures :=
  ⟨by decide,
    spec_c3_signatures_verbatim (exampleRawTx [0xde, 0xad] exampleConfirmations) (by decide)⟩

/-- C10.  A falsy decoded-data input (`{}` or `None`) makes the formatter
return `None` before any `method` key is read (`DecodedData.empty` carries no
method at all). -/
theorem spec_c10_falsy_input :
    data_decoded_to_text DecodedData.empty = .ok none := rfl

/-- Each decimal digit character decodes back to its digit. -/
theorem digitChar_val : ∀ d < 10, (digitChar d).toNat - 48 = d := by decide

/-- Folding the decimal decoder over `natStrAux` recovers the number. -/
theorem natStrAux_foldl (fuel : Nat) :
    ∀ n ≤ fuel, ∀ a : Nat,
      List.foldl (fun a c => 10 * a + (c.toNat - 48)) a (natStrAux fuel n)
        = a * 10 ^ (natStrAux fuel n).length + n := by
  induction fuel with
  | zero =>
    intro n hn a
    interval_cases n
    simp [natStrAux]
  | succ fuel ih =>
    intro n hn a
    by_cases h : n = 0
    · subst h; simp [natStrAux]
    · have hq : n / 10 ≤ fuel := by omega
      have hrec := ih (n / 10) hq a
      simp only [natStrAux, if_neg h, List.foldl_append, List.foldl_cons, List.foldl_nil,
        List.length_append, List.length_cons, List.length_nil, hrec]
      have hd : (digitChar (n % 10)).toNat - 48 = n % 10 :=
        digitChar_val (n % 10) (Nat.mod_lt _ (by omega))
      rw [hd]
      have h1 : 10 * (a * 10 ^ (natStrAux fuel (n / 10)).length + n / 10) + n % 10
          = 10 * (a * 10 ^ (natStrAux fuel (n / 10)).length) + (10 * (n / 10) + n % 10) := by
        ring
      rw [h1, Nat.div_add_mod]
      ring

/-- `natStrVal` is a left inverse of `natStr`. -/
theorem natStrVal_natStr (n : Nat) : natStrVal (natStr n) = n := by
  by_cases h : n = 0
  · subst h; rfl
  · unfold natStr natStrVal
    rw [if_neg h]
    simpa using natStrAux_foldl n n (Nat.le_refl n) 0

/-- Distinct non-negative integers have distinct decimal renderings. -/
theorem natStr_injective : Function.Injective natStr :=
  Function.LeftInverse.injective natStrVal_natStr

/-- C4.  The delegate authentication hash is the keccak of the address string
concatenated with the decimal string of `int(time.time()) // 3600`; two
invocations in the same one-hour bucket agree, invocations in different
buckets differ (for an injective keccak), and both `add_delegate` and
`remove_delegate` sign exactly this hash. -/
theorem spec_c4_delegate_hash (H : Type) (keccak : Str → H) (addr : Str)
    (t1 t2 : Nat) :
    create_delegate_message_hash keccak t1 addr = keccak (addr ++ natStr (t1 / 3600)) ∧
    (t1 / 3600 = t2 / 3600 →
      create_delegate_message_hash keccak t1 addr
        = create_delegate_message_hash keccak t2 addr) ∧
    (Function.Injective keccak → t1 / 3600 ≠ t2 / 3600 →
      create_delegate_message_hash keccak t1 addr
        ≠ create_delegate_message_hash keccak t2 addr) ∧
    (∀ (sign : H → Str) (safe label : Str) (resp : ApiResponse)
        (p : DelegatePayload) (q : RemoveDelegatePayload),
      (add_delegate keccak sign t1 safe addr label resp = .ok p →
        p.signature = sign (create_delegate_message_hash keccak t1 addr)) ∧
      (remove_delegate keccak sign t1 safe addr resp = .ok q →
        q.signature = sign (create_delegate_message_hash keccak t1 addr))) := by
  refine ⟨rfl, ?_, ?_, ?_⟩
  · intro hb
    unfold create_delegate_message_hash
    rw [hb]
  · intro hinj hb heq
    unfold create_delegate_message_hash at heq
    exact hb (natStr_injective (List.append_cancel_left (hinj heq)))
  · intro sign safe label resp p q
    constructor
    · intro hp
      unfold add_delegate at hp
      cases hok : resp.ok with
      | false => rw [hok] at hp; simp at hp
      | true =>
        rw [hok] at hp
        simp at hp
        rw [← hp]
    · intro hq
      unfold remove_delegate at hq
      cases hok : resp.ok with
      | false => rw [hok] at hq; simp at hq
      | true =>
        rw [hok] at hq
        simp at hq
        rw [← hq]

/-- Witness for C4: with keccak instantiated as the (injective) identity
encoding, times `100` and `4000` fall in different buckets and give
different hashes, while `100` and `200` share bucket `0` and agree. -/
theorem spec_c4_witness :
    (Function.Injective (fun s : Str => s) ∧ (100 : Nat) / 3600 ≠ 4000 / 3600 ∧
      (100 : Nat) / 3600 = 200 / 3600) ∧
    create_delegate_message_hash (fun s : Str => s) 100 "0xd".data
      ≠ create_delegate_message_hash (fun s : Str => s) 4000 "0xd".data ∧
    create_delegate_message_hash (fun s : Str => s) 100 "0xd".data
      = create_delegate_message_hash (fun s : Str => s) 200 "0xd".data :=
  ⟨⟨fun _ _ h => h, by decide, by decide⟩,
    (spec_c4_delegate_hash Str (fun s => s) "0xd".data 100 4000).2.2.1
      (fun _ _ h => h) (by decide),
    (spec_c4_delegate_hash Str (fun s => s) "0xd".data 100 200).2.1 (by decide)⟩

/-- C6.  The `sender` field POSTed by `post_transaction` is the placeholder
`0x0000000000000000000000000000000000000002` when there are no signers, and
otherwise the first signer of the sorted signer list — which, the list being
sorted by ascending numeric address value, is the numerically-first signer. -/
theorem spec_c6_post_transaction_sender (tx : SafeTx) (sorted_signers : List Str)
    (safe_tx_hash : Bytes)
    (hsorted : sorted_signers.Pairwise (fun a b => addrKey a ≤ addrKey b)) :
    (sorted_signers = [] →
      (post_transaction_data tx sorted_signers safe_tx_hash).sender
        = "0x0000000000000000000000000000000000000002".data) ∧
    (∀ s rest, sorted_signers = s :: rest →
      (post_transaction_data tx sorted_signers safe_tx_hash).sender = s ∧
      ∀ x ∈ sorted_signers, addrKey s ≤ addrKey x) ∧
    (∀ resp : ApiResponse, resp.ok = true →
      post_transaction tx sorted_signers safe_tx_hash resp
        = .ok (post_transaction_data tx sorted_signers safe_tx_hash)) := by
  refine ⟨?_, ?_, ?_⟩
  · intro he
    subst he
    simp [post_transaction_data, random_sender]
  · intro s rest hcons
    subst hcons
    constructor
    · simp [post_transaction_data]
    · intro x hx
      rcases List.mem_cons.1 hx with h | h
      · subst h; exact Nat.le_refl _
      · exact (List.pairwise_cons.1 hsorted).1 x h
  · intro resp hok
    unfold post_transaction
    rw [hok]
    simp

/-- Witness for C6: no signers gives the placeholder; signers
`["0x01", "0x02"]` (sorted ascending) give sender `0x01`. -/
theorem spec_c6_witness :
    (List.Pairwise (fun a b => addrKey a ≤ addrKey b) ([] : List Str) ∧
      List.Pairwise (fun a b => addrKey a ≤ addrKey b) ["0x01".data, "0x02".data]) ∧
    (post_transaction_data exampleSafeTx [] [0x01]).sender
      = "0x0000000000000000000000000000000000000002".data ∧
    ((post_transaction_data exampleSafeTx ["0x01".data, "0x02".data] [0x01]).sender
        = "0x01".data ∧
      ∀ x ∈ ["0x01".data, "0x02".data], addrKey "0x01".data ≤ addrKey x) :=
  ⟨⟨by decide, by decide⟩,
    (spec_c6_post_transaction_sender exampleSafeTx [] [0x01] (by decide)).1 rfl,
    ((spec_c6_post_transaction_sender exampleSafeTx ["0x01".data, "0x02".data] [0x01]
      (by decide)).2.1) "0x01".data ["0x02".data] rfl⟩

/-- C7.  A 2xx response whose JSON object lacks the `results` key makes both
`get_transactions` and `get_delegates` return the empty list, not an error. -/
theorem spec_c7_missing_results (resp : ApiResponse) (fs : List (Str × PyVal))
    (hok : resp.ok = true) (hbody : resp.body = .vdict fs)
    (hmiss : hasKey fs "results".data = false) :
    get_transactions resp = .ok (.vlist []) ∧
    get_delegates resp = .ok (.vlist []) := by
  have hnone : dictLookup fs "results".data = none := by
    cases h : dictLookup fs "results".data with
    | none => rfl
    | some v => rw [hasKey, h] at hmiss; simp at hmiss
  constructor
  · unfold get_transactions
    rw [hok]
    simp only [Bool.true_eq_false, if_false, hbody, hnone]
    rfl
  · unfold get_delegates
    rw [hok]
    simp only [Bool.true_eq_false, if_false, hbody, hnone]
    rfl

/-- Witness for C7: a 2xx response carrying `{"count": 0}`. -/
theorem spec_c7_witness :
    ((ApiResponse.mk true [] (.vdict [("count".data, .vint 0)])).ok = true ∧
      (ApiResponse.mk true [] (.vdict [("count".data, .vint 0)])).body
        = .vdict [("count".data, .vint 0)] ∧
      hasKey [("count".data, PyVal.vint 0)] "results".data = false) ∧
    (get_transactions (ApiResponse.mk true [] (.vdict [("count".data, .vint 0)]))
        = .ok (.vlist []) ∧
      get_delegates (ApiResponse.mk true [] (.vdict [("count".data, .vint 0)]))
        = .ok (.vlist [])) :=
  ⟨⟨rfl, rfl, by decide⟩,
    spec_c7_missing_results (ApiResponse.mk true [] (.vdict [("count".data, .vint 0)]))
      [("count".data, .vint 0)] rfl rfl (by decide)⟩

/-- C8.  Every relay-client operation raises `SafeAPIException` exactly when
the HTTP response is non-2xx, and the exception message embeds the raw
response body (`response.content`) — never retried or recovered locally. -/
theorem spec_c8_relay_error (H : Type) (keccak : Str → H) (sign : H → Str)
    (now chain_id : Nat) (safe_address delegate_address label : Str)
    (tx : SafeTx) (sorted_signers : List Str) (safe_tx_hash sigs : Bytes)
    (rb rt rd rp ra rr rx : ApiResponse) (rg : TxApiResponse) :
    (((∃ m, get_balances rb = .error (.safeAPIException m)) ↔ rb.ok = false) ∧
      ∀ m, get_balances rb = .error (.safeAPIException m) →
        ∃ pre, m = pre ++ rb.content) ∧
    (((∃ m, get_transactions rt = .error (.safeAPIException m)) ↔ rt.ok = false) ∧
      ∀ m, get_transactions rt = .error (.safeAPIException m) →
        ∃ pre, m = pre ++ rt.content) ∧
    (((∃ m, get_delegates rd = .error (.safeAPIException m)) ↔ rd.ok = false) ∧
      ∀ m, get_delegates rd = .error (.safeAPIException m) →
        ∃ pre, m = pre ++ rd.content) ∧
    (((∃ m, get_safe_transaction chain_id safe_tx_hash rg
        = .error (.safeAPIException m)) ↔ rg.ok = false) ∧
      ∀ m, get_safe_transaction chain_id safe_tx_hash rg
        = .error (.safeAPIException m) → ∃ pre, m = pre ++ rg.content) ∧
    (((∃ m, post_signatures safe_tx_hash sigs rp = .error (.safeAPIException m)) ↔
        rp.ok = false) ∧
      ∀ m, post_signatures safe_tx_hash sigs rp = .error (.safeAPIException m) →
        ∃ pre, m = pre ++ rp.content) ∧
    (((∃ m, add_delegate keccak sign now safe_address delegate_address label ra
        = .error (.safeAPIException m)) ↔ ra.ok = false) ∧
      ∀ m, add_delegate keccak sign now safe_address delegate_address label ra
        = .error (.safeAPIException m) → ∃ pre, m = pre ++ ra.content) ∧
    (((∃ m, remove_delegate keccak sign now safe_address delegate_address rr
        = .error (.safeAPIException m)) ↔ rr.ok = false) ∧
      ∀ m, remove_delegate keccak sign now safe_address delegate_address rr
        = .error (.safeAPIException m) → ∃ pre, m = pre ++ rr.content) ∧
    (((∃ m, post_transaction tx sorted_signers safe_tx_hash rx
        = .error (.safeAPIException m)) ↔ rx.ok = false) ∧
      ∀ m, post_transaction tx sorted_signers safe_tx_hash rx
        = .error (.safeAPIException m) → ∃ pre, m = pre ++ rx.content) := by
  refine ⟨⟨⟨?_, ?_⟩, ?_⟩, ⟨⟨?_, ?_⟩, ?_⟩, ⟨⟨?_, ?_⟩, ?_⟩, ⟨⟨?_, ?_⟩, ?_⟩,
    ⟨⟨?_, ?_⟩, ?_⟩, ⟨⟨?_, ?_⟩, ?_⟩, ⟨⟨?_, ?_⟩, ?_⟩, ⟨⟨?_, ?_⟩, ?_⟩⟩
  · rintro ⟨m, hm⟩
    cases hok : rb.ok
    · rfl
    · simp [get_balances, hok] at hm
  · intro hok
    exact ⟨"Cannot get balances: ".data ++ rb.content, by simp [get_balances, hok]⟩
  · intro m hm
    cases hok : rb.ok
    · simp [get_balances, hok] at hm
      exact ⟨"Cannot get balances: ".data, by simp [hm]⟩
    · simp [get_balances, hok] at hm
  · rintro ⟨m, hm⟩
    cases hok : rt.ok
    · rfl
    · cases hb : rt.body <;> simp [get_transactions, hok, hb] at hm
  · intro hok
    exact ⟨"Cannot get transactions: ".data ++ rt.content, by simp [get_transactions, hok]⟩
  · intro m hm
    cases hok : rt.ok
    · simp [get_transactions, hok] at hm
      exact ⟨"Cannot get transactions: ".data, by simp [hm]⟩
    · cases hb : rt.body <;> simp [get_transactions, hok, hb] at hm
  · rintro ⟨m, hm⟩
    cases hok : rd.ok
    · rfl
    · cases hb : rd.body <;> simp [get_delegates, hok, hb] at hm
  · intro hok
    exact ⟨"Cannot get delegates: ".data ++ rd.content, by simp [get_delegates, hok]⟩
  · intro m hm
    cases hok : rd.ok
    · simp [get_delegates, hok] at hm
      exact ⟨"Cannot get delegates: ".data, by simp [hm]⟩
    · cases hb : rd.body <;> simp [get_delegates, hok, hb] at hm
  · rintro ⟨m, hm⟩
    cases hok : rg.ok
    · rfl
    · simp [get_safe_transaction, hok] at hm
  · intro hok
    exact ⟨"Cannot get transaction with safe-tx-hash=".data ++ bytes_hex safe_tx_hash ++ ": ".data ++ rg.content, by simp [get_safe_transaction, hok]⟩
  · intro m hm
    cases hok : rg.ok
    · simp [get_safe_transaction, hok] at hm
      exact ⟨("Cannot get transaction with safe-tx-hash=".data ++ bytes_hex safe_tx_hash ++ ": ".data), by simp [hm]⟩
    · simp [get_safe_transaction, hok] at hm
  · rintro ⟨m, hm⟩
    cases hok : rp.ok
    · rfl
    · simp [post_signatures, hok] at hm
  · intro hok
    exact ⟨"Cannot post signatures for tx with safe-tx-hash=".data ++ bytes_hex safe_tx_hash ++ ": ".data ++ rp.content, by simp [post_signatures, hok]⟩
  · intro m hm
    cases hok : rp.ok
    · simp [post_signatures, hok] at hm
      exact ⟨("Cannot post signatures for tx with safe-tx-hash=".data ++ bytes_hex safe_tx_hash ++ ": ".data), by simp [hm]⟩
    · simp [post_signatures, hok] at hm
  · rintro ⟨m, hm⟩
    cases hok : ra.ok
    · rfl
    · simp [add_delegate, hok] at hm
  · intro hok
    exact ⟨"Cannot add delegate: ".data ++ ra.content, by simp [add_delegate, hok]⟩
  · intro m hm
    cases hok : ra.ok
    · simp [add_delegate, hok] at hm
      exact ⟨"Cannot add delegate: ".data, by simp [hm]⟩
    · simp [add_delegate, hok] at hm
  · rintro ⟨m, hm⟩
    cases hok : rr.ok
    · rfl
    · simp [remove_delegate, hok] at hm
  · intro hok
    exact ⟨"Cannot remove delegate: ".data ++ rr.content, by simp [remove_delegate, hok]⟩
  · intro m hm
    cases hok : rr.ok
    · simp [remove_delegate, hok] at hm
      exact ⟨"Cannot remove delegate: ".data, by simp [hm]⟩
    · simp [remove_delegate, hok] at hm
  · rintro ⟨m, hm⟩
    cases hok : rx.ok
    · rfl
    · simp [post_transaction, hok] at hm
  · intro hok
    exact ⟨"Error posting transaction: ".data ++ rx.content, by simp [post_transaction, hok]⟩
  · intro m hm
    cases hok : rx.ok
    · simp [post_transaction, hok] at hm
      exact ⟨"Error posting transaction: ".data, by simp [hm]⟩
    · simp [post_transaction, hok] at hm

/-- Witness for C8: a concrete non-2xx response makes `get_balances` raise a
relay error whose message ends in the response body, and a concrete 2xx
response makes `post_transaction` succeed (raise nothing). -/
theorem spec_c8_witness :
    (∃ m, get_balances (ApiResponse.mk false "boom".data .vnull)
      = .error (.safeAPIException m)) ∧
    ¬ ∃ m, post_transaction exampleSafeTx [] [0x01] (ApiResponse.mk true [] .vnull)
      = .error (.safeAPIException m) :=
  ⟨((spec_c8_relay_error Str (fun s => s) (fun h => h) 0 1 [] [] []
      exampleSafeTx [] [0x01] []
      (ApiResponse.mk false "boom".data .vnull)
      (ApiResponse.mk true [] .vnull) (ApiResponse.mk true [] .vnull)
      (ApiResponse.mk true [] .vnull) (ApiResponse.mk true [] .vnull)
      (ApiResponse.mk true [] .vnull) (ApiResponse.mk true [] .vnull)
      (TxApiResponse.mk true [] (exampleRawTx [] []))).1.1).2 rfl,
    fun hexm =>
      absurd
        (((spec_c8_relay_error Str (fun s => s) (fun h => h) 0 1 [] [] []
          exampleSafeTx [] [0x01] []
          (ApiResponse.mk false "boom".data .vnull)
          (ApiResponse.mk true [] .vnull) (ApiResponse.mk true [] .vnull)
          (ApiResponse.mk true [] .vnull) (ApiResponse.mk true [] .vnull)
          (ApiResponse.mk true [] .vnull)
          (ApiResponse.mk true [] .vnull)
          (TxApiResponse.mk true [] (exampleRawTx [] []))).2.2.2.2.2.2.2.1).1 hexm)
        (by decide)⟩

/-- C5.  `get_contract_metadata` yields no metadata (and no error) on a
non-2xx response, on a payload carrying an `error` key, and on a null
`smartContract` record; it yields a populated record (name, decoded ABI,
hardcoded non-proxy flag) on the success shape; and it yields a populated
record only when the response is 2xx, the payload is truthy without an
`error` key, and a truthy smart-contract entry with its name and ABI
exists. -/
theorem spec_c5_contract_metadata (A : Type) (json_loads : Str → A) (resp : BsResponse) :
    (resp.ok = false → get_contract_metadata json_loads resp = .ok none) ∧
    (∀ fs, resp.ok = true → resp.body = .vdict fs →
      hasKey fs "error".data = true →
      get_contract_metadata json_loads resp = .ok none) ∧
    (∀ fs dfs afs, resp.ok = true → resp.body = .vdict fs →
      hasKey fs "error".data = false →
      dictLookup fs "data".data = some (.vdict dfs) →
      dictLookup dfs "address".data = some (.vdict afs) →
      dictLookup afs "smartContract".data = some .vnull →
      get_contract_metadata json_loads resp = .ok none) ∧
    (∀ fs dfs afs scfs namev abis, resp.ok = true → resp.body = .vdict fs →
      hasKey fs "error".data = false →
      dictLookup fs "data".data = some (.vdict dfs) →
      dictLookup dfs "address".data = some (.vdict afs) →
      dictLookup afs "smartContract".data = some (.vdict scfs) →
      scfs ≠ [] →
      dictLookup scfs "name".data = some namev →
      dictLookup scfs "abi".data = some (.vstr abis) →
      get_contract_metadata json_loads resp
        = .ok (some ⟨namev, json_loads abis, false⟩)) ∧
    (∀ md, get_contract_metadata json_loads resp = .ok (some md) →
      resp.ok = true ∧ resp.body.truthy = true ∧
      pyContains "error".data resp.body = .ok false ∧
      ∃ dv av sc, pyIndex resp.body "data".data = .ok dv ∧
        pyIndex dv "address".data = .ok av ∧
        pyIndex av "smartContract".data = .ok sc ∧ sc.truthy = true ∧
        ∃ namev abis, pyIndex sc "name".data = .ok namev ∧
          pyIndex sc "abi".data = .ok (.vstr abis) ∧
          md = ⟨namev, json_loads abis, false⟩) := by
  refine ⟨?_, ?_, ?_, ?_, ?_⟩
  · intro hok
    unfold get_contract_metadata
    have hdo : _do_request resp = none := by simp [_do_request, hok]
    rw [hdo]
  · intro fs hok hbody herr
    have hdo : _do_request resp = some resp.body := by simp [_do_request, hok]
    have hne : fs ≠ [] := by
      intro h
      subst h
      simp [hasKey, dictLookup] at herr
    unfold get_contract_metadata
    rw [hdo, hbody]
    have htr : (PyVal.vdict fs).truthy = true := by
      cases fs with
      | nil => exact absurd rfl hne
      | cons a l => rfl
    dsimp only
    simp [htr, pyContains, herr]
  · intro fs dfs afs hok hbody herr hdata haddr hsc
    have hdo : _do_request resp = some resp.body := by simp [_do_request, hok]
    have hne : fs ≠ [] := by
      intro h
      subst h
      simp [dictLookup] at hdata
    unfold get_contract_metadata
    rw [hdo, hbody]
    have htr : (PyVal.vdict fs).truthy = true := by
      cases fs with
      | nil => exact absurd rfl hne
      | cons a l => rfl
    have hane : afs ≠ [] := by
      intro h
      subst h
      simp [dictLookup] at hsc
    have hatr : (PyVal.vdict afs).truthy = true := by
      cases afs with
      | nil => exact absurd rfl hane
      | cons a l => rfl
    dsimp only
    simp [htr, pyContains, herr, pyGet, pyIndex, hdata, haddr, hsc, hatr, PyVal.truthy]
  · intro fs dfs afs scfs namev abis hok hbody herr hdata haddr hsc hscne hname habi
    have hdo : _do_request resp = some resp.body := by simp [_do_request, hok]
    have hne : fs ≠ [] := by
      intro h
      subst h
      simp [dictLookup] at hdata
    unfold get_contract_metadata
    rw [hdo, hbody]
    have htr : (PyVal.vdict fs).truthy = true := by
      cases fs with
      | nil => exact absurd rfl hne
      | cons a l => rfl
    have hane : afs ≠ [] := by
      intro h
      subst h
      simp [dictLookup] at hsc
    have hatr : (PyVal.vdict afs).truthy = true := by
      cases afs with
      | nil => exact absurd rfl hane
      | cons a l => rfl
    have hsctr : (PyVal.vdict scfs).truthy = true := by
      cases scfs with
      | nil => exact absurd rfl hscne
      | cons a l => rfl
    dsimp only
    simp [htr, pyContains, herr, pyGet, pyIndex, hdata, haddr, hsc, hatr, hsctr, hname, habi]
  · intro md h
    unfold get_contract_metadata at h
    cases hok : resp.ok with
    | false =>
      have hdo : _do_request resp = none := by simp [_do_request, hok]
      rw [hdo] at h
      simp at h
    | true =>
      have hdo : _do_request resp = some resp.body := by simp [_do_request, hok]
      rw [hdo] at h
      dsimp only at h
      refine ⟨rfl, ?_⟩
      split at h
      · simp at h
      · rename_i htr
        refine ⟨by simpa using htr, ?_⟩
        split at h
        · simp at h
        · simp at h
        · rename_i hcont
          refine ⟨hcont, ?_⟩
          split at h
          · simp at h
          · rename_i datav hdatav
            split at h
            · simp at h
            · rename_i addrv haddrv
              split at h
              · simp at h
              · split at h
                · simp at h
                · rename_i dv hdv
                  split at h
                  · simp at h
                  · rename_i av hav
                    split at h
                    · simp at h
                    · rename_i sc hsc
                      split at h
                      · simp at h
                      · rename_i hsctr
                        split at h
                        · simp at h
                        · rename_i namev hnamev
                          split at h
                          · simp at h
                          · rename_i abiv habiv
                            split at h
                            · rename_i aval s
                              simp at h
                              exact ⟨dv, av, sc, hdv, hav, hsc,
                                by simpa using hsctr,
                                namev, s, hnamev, habiv, by rw [← h]⟩
                            · simp at h

/-- Witness for C5: a failed request yields no metadata, and a well-formed
success response yields the populated record. -/
theorem spec_c5_witness :
    get_contract_metadata (fun s : Str => s) (BsResponse.mk false .vnull) = .ok none ∧
    get_contract_metadata (fun s : Str => s) (BsResponse.mk true
        (.vdict [("data".data, .vdict [("address".data, .vdict [("smartContract".data,
          .vdict [("name".data, .vstr "Tok".data), ("abi".data, .vstr "[]".data)])])])]))
      = .ok (some ⟨.vstr "Tok".data, "[]".data, false⟩) :=
  ⟨(spec_c5_contract_metadata Str (fun s => s) (BsResponse.mk false .vnull)).1 rfl,
    (spec_c5_contract_metadata Str (fun s => s) (BsResponse.mk true
        (.vdict [("data".data, .vdict [("address".data, .vdict [("smartContract".data,
          .vdict [("name".data, .vstr "Tok".data), ("abi".data, .vstr "[]".data)])])])]))).2.2.2.1
      _ _ _ _ _ _ rfl rfl (by decide) rfl rfl rfl (List.cons_ne_nil _ _) rfl rfl⟩

/-- Joining recursion results that are all strings succeeds. -/
theorem seqStrings_map_some (rs : List Str) : seqStrings (rs.map some) = .ok rs := by
  induction rs with
  | nil => rfl
  | cons s rest ih => simp [seqStrings, ih]

/-- When every nested item renders to a string, the comprehension produces
exactly those strings. -/
theorem renderItems_ok (items : List DVItem)
    (h : ∀ it ∈ items, ∃ s, data_decoded_to_text it.decodedData = .ok (some s)) :
    ∃ rs : List Str, renderItems items = .ok (rs.map some) ∧
      ∀ it ∈ items, ∃ s ∈ rs, data_decoded_to_text it.decodedData = .ok (some s) := by
  induction items with
  | nil => exact ⟨[], rfl, by simp⟩
  | cons it rest ih =>
    obtain ⟨s, hs⟩ := h it (List.mem_cons_self it rest)
    obtain ⟨rs, hrs, hmem⟩ := ih (fun x hx => h x (List.mem_cons_of_mem _ hx))
    cases it with
    | mk dd =>
      refine ⟨s :: rs, ?_, ?_⟩
      · simp only [DVItem.decodedData] at hs
        simp [renderItems, hs, hrs]
      · intro x hx
        rcases List.mem_cons.1 hx with h1 | h1
        · subst h1
          exact ⟨s, List.mem_cons_self s rs, hs⟩
        · obtain ⟨s', hs'm, hs'⟩ := hmem x h1
          exact ⟨s', List.mem_cons_of_mem _ hs'm, hs'⟩

/-- Every joined string occurs in the join, preceded by the separator. -/
theorem joinSep_infix (sep : Str) (rs : List Str) :
    ∀ s ∈ rs, (sep ++ s) <:+: (sep ++ joinSep sep rs) := by
  induction rs with
  | nil => simp
  | cons r rest ih =>
    intro s hs
    cases rest with
    | nil =>
      rcases List.mem_singleton.1 hs with h
      subst h
      simp [joinSep]
    | cons r2 rest2 =>
      rcases List.mem_cons.1 hs with h1 | h1
      · subst h1
        refine ⟨[], sep ++ joinSep sep (r2 :: rest2), ?_⟩
        simp [joinSep]
      · have hsuf : (sep ++ joinSep sep (r2 :: rest2)) <:+:
            (sep ++ joinSep sep (r :: r2 :: rest2)) := by
          refine ⟨sep ++ r, [], ?_⟩
          simp [joinSep]
        exact (ih s h1).trans hsuf

/-- Accumulated loop text: it exists when all nested items render, starts
with the `method:\n - ` header as soon as one parameter is nested, and
contains every nested rendering behind a `\n - ` marker. -/
theorem renderParams_ok (method : Str) (params : List Param)
    (hok : ∀ p ∈ params, ∀ items, p.decodedValue = some items →
      ∀ it ∈ items, ∃ s, data_decoded_to_text it.decodedData = .ok (some s)) :
    ∃ text, renderParams method params = .ok text ∧
      ((∃ p ∈ params, p.decodedValue ≠ none) →
        ∃ tail, text = method ++ (':' :: '\n' :: ' ' :: '-' :: ' ' :: []) ++ tail) ∧
      (∀ p ∈ params, ∀ items, p.decodedValue = some items →
        ∀ it ∈ items, ∃ s, data_decoded_to_text it.decodedData = .ok (some s) ∧
          (('\n' :: ' ' :: '-' :: ' ' :: []) ++ s) <:+: text) := by
  induction params with
  | nil => exact ⟨[], rfl, by simp, by simp⟩
  | cons p rest ih =>
    obtain ⟨tt, htt, hhd, hinf⟩ := ih (fun q hq => hok q (List.mem_cons_of_mem _ hq))
    cases p with
    | mk v dv =>
      cases dv with
      | none =>
        refine ⟨tt, ?_, ?_, ?_⟩
        · simp [renderParams, htt]
        · intro hnested
          obtain ⟨q, hq, hqdv⟩ := hnested
          rcases List.mem_cons.1 hq with h1 | h1
          · subst h1
            simp [Param.decodedValue] at hqdv
          · exact hhd ⟨q, h1, hqdv⟩
        · intro q hq items hitems it hit
          rcases List.mem_cons.1 hq with h1 | h1
          · subst h1
            simp [Param.decodedValue] at hitems
          · exact hinf q h1 items hitems it hit
      | some items =>
        have hs := hok (Param.mk v (some items)) (List.mem_cons_self _ _) items rfl
        obtain ⟨rs, hrs, hmem⟩ := renderItems_ok items hs
        refine ⟨method ++ (':' :: '\n' :: ' ' :: '-' :: ' ' :: [])
            ++ joinSep ('\n' :: ' ' :: '-' :: ' ' :: []) rs ++ ('\n' :: []) ++ tt,
          ?_, ?_, ?_⟩
        · simp [renderParams, hrs, seqStrings_map_some, htt]
        · intro _
          exact ⟨joinSep ('\n' :: ' ' :: '-' :: ' ' :: []) rs ++ ('\n' :: []) ++ tt,
            by simp [List.append_assoc]⟩
        · intro q hq qitems hitems it hit
          rcases List.mem_cons.1 hq with h1 | h1
          · subst h1
            simp only [Param.decodedValue, Option.some.injEq] at hitems
            subst hitems
            obtain ⟨s, hsm, hsv⟩ := hmem it hit
            refine ⟨s, hsv, ?_⟩
            have hJ := joinSep_infix ('\n' :: ' ' :: '-' :: ' ' :: []) rs s hsm
            have hemb : (('\n' :: ' ' :: '-' :: ' ' :: [])
                ++ joinSep ('\n' :: ' ' :: '-' :: ' ' :: []) rs) <:+:
                (method ++ (':' :: '\n' :: ' ' :: '-' :: ' ' :: [])
                  ++ joinSep ('\n' :: ' ' :: '-' :: ' ' :: []) rs ++ ('\n' :: []) ++ tt) := by
              refine ⟨method ++ [':'], ('\n' :: []) ++ tt, ?_⟩
              simp
            exact hJ.trans hemb
          · obtain ⟨s, hsv, hsinf⟩ := hinf q h1 qitems hitems it hit
            refine ⟨s, hsv, ?_⟩
            have hsuf : tt <:+: (method ++ (':' :: '\n' :: ' ' :: '-' :: ' ' :: [])
                ++ joinSep ('\n' :: ' ' :: '-' :: ' ' :: []) rs ++ ('\n' :: []) ++ tt) := by
              refine ⟨method ++ (':' :: '\n' :: ' ' :: '-' :: ' ' :: [])
                ++ joinSep ('\n' :: ' ' :: '-' :: ' ' :: []) rs ++ ('\n' :: []), [], ?_⟩
              simp
            exact hsinf.trans hsuf

/-- `dropWhile` keeps a list whose head fails the predicate. -/
theorem dropWhile_keep (c : Char) (cs : Str) (hc : pyIsSpace c = false) :
    (c :: cs).dropWhile pyIsSpace = c :: cs := by
  simp [List.dropWhile_cons, hc]

/-- Right-stripping cannot eat into a prefix that ends in a
non-whitespace character. -/
theorem rstrip_prefix (p : Str) (c : Char) (r : Str) (hc : pyIsSpace c = false) :
    (p ++ [c]) <+: (((p ++ [c] ++ r).reverse.dropWhile pyIsSpace).reverse) := by
  have h1 : (p ++ [c] ++ r).reverse = r.reverse ++ (c :: p.reverse) := by simp
  rw [h1, List.dropWhile_append]
  by_cases he : (r.reverse.dropWhile pyIsSpace).isEmpty = true
  · rw [if_pos he, dropWhile_keep c _ hc]
    simp
  · rw [if_neg he]
    refine ⟨(r.reverse.dropWhile pyIsSpace).reverse, ?_⟩
    simp

example : data_decoded_to_text (.node "transfer".data [.mk "100".data none])
    = .ok (some "transfer: 100".data) := by rfl

/-- C9 (amended).  The formatter yields `"transfer: 100"` on the spec's
concrete input; and on any input where some parameter carries a nested
`decodedValue` list, provided every nested item's `decodedData` renders to a
string (a falsy or malformed nested `decodedData` raises `TypeError`
instead — see the counterexample) and the method name does not begin with
whitespace, it returns the stripped loop text: a multi-line string starting
with the outer method name and containing each nested rendering indented
behind a `\n - ` marker. -/
theorem spec_c9_formatter (method : Str) (params : List Param)
    (hm : ∀ c cs, method = c :: cs → pyIsSpace c = false)
    (hnested : ∃ p ∈ params, p.decodedValue ≠ none)
    (hok : ∀ p ∈ params, ∀ items, p.decodedValue = some items →
      ∀ it ∈ items, ∃ s, data_decoded_to_text it.decodedData = .ok (some s)) :
    data_decoded_to_text (.node "transfer".data [.mk "100".data none])
      = .ok (some "transfer: 100".data) ∧
    ∃ text, renderParams method params = .ok text ∧
      data_decoded_to_text (.node method params) = .ok (some (pystrip text)) ∧
      (method ++ (':' :: '\n' :: ' ' :: '-' :: [])) <+: pystrip text ∧
      '\n' ∈ pystrip text ∧
      (∀ p ∈ params, ∀ items, p.decodedValue = some items →
        ∀ it ∈ items, ∃ s, data_decoded_to_text it.decodedData = .ok (some s) ∧
          (('\n' :: ' ' :: '-' :: ' ' :: []) ++ s) <:+: text) := by
  obtain ⟨text, htext, hhd, hinf⟩ := renderParams_ok method params hok
  obtain ⟨tail, htail⟩ := hhd hnested
  have hne : text ≠ [] := by
    rw [htail]
    simp
  have hl : text.dropWhile pyIsSpace = text := by
    rw [htail]
    cases hmm : method with
    | nil =>
      simp only [List.nil_append]
      exact dropWhile_keep ':' _ (by decide)
    | cons c cs =>
      have hcc : pyIsSpace c = false := hm c cs hmm
      have : (c :: cs) ++ (':' :: '\n' :: ' ' :: '-' :: ' ' :: []) ++ tail
          = c :: (cs ++ (':' :: '\n' :: ' ' :: '-' :: ' ' :: []) ++ tail) := by
        simp
      rw [this]
      exact dropWhile_keep c _ hcc
  have htext2 : text = (method ++ (':' :: '\n' :: ' ' :: [])) ++ ['-'] ++ (' ' :: tail) := by
    rw [htail]
    simp
  have hstrip : pystrip text = ((text.reverse.dropWhile pyIsSpace)).reverse := by
    rw [pystrip, hl]
  have hpre : ((method ++ (':' :: '\n' :: ' ' :: [])) ++ ['-']) <+: pystrip text := by
    rw [hstrip, htext2]
    exact rstrip_prefix (method ++ (':' :: '\n' :: ' ' :: [])) '-' (' ' :: tail) (by decide)
  have hpre2 : (method ++ (':' :: '\n' :: ' ' :: '-' :: [])) <+: pystrip text := by
    have : (method ++ (':' :: '\n' :: ' ' :: [])) ++ ['-']
        = method ++ (':' :: '\n' :: ' ' :: '-' :: []) := by simp
    rw [← this]
    exact hpre
  refine ⟨by rfl, text, htext, ?_, hpre2, ?_, hinf⟩
  · simp [data_decoded_to_text, htext, hne]
  · have hmem : '\n' ∈ method ++ (':' :: '\n' :: ' ' :: '-' :: []) := by simp
    exact List.Sublist.mem hmem hpre2.sublist

/-- Witness for C9 at the concrete nested input
`{"method": "multiSend", "parameters": [{"value": 0, "decodedValue":
[{"decodedData": {"method": "transfer", ...}}]}]}`. -/
theorem spec_c9_formatter_witness :
    ((∀ c cs, ("multiSend".data : Str) = c :: cs → pyIsSpace c = false) ∧
      (∃ p ∈ exampleNestedParams, p.decodedValue ≠ none)) ∧
    data_decoded_to_text (.node "multiSend".data exampleNestedParams)
      = .ok (some "multiSend:\n - transfer: 100".data) ∧
    (∃ text, renderParams "multiSend".data exampleNestedParams = .ok text ∧
      data_decoded_to_text (.node "multiSend".data exampleNestedParams)
        = .ok (some (pystrip text)) ∧
      ("multiSend".data ++ (':' :: '\n' :: ' ' :: '-' :: [])) <+: pystrip text ∧
      '\n' ∈ pystrip text ∧
      (∀ p ∈ exampleNestedParams, ∀ items, p.decodedValue = some items →
        ∀ it ∈ items, ∃ s, data_decoded_to_text it.decodedData = .ok (some s) ∧
          (('\n' :: ' ' :: '-' :: ' ' :: []) ++ s) <:+: text)) := by
  have hm : ∀ c cs, ("multiSend".data : Str) = c :: cs → pyIsSpace c = false := by
    intro c cs h
    injection h with h1 h2
    rw [← h1]
    decide
  have hnested : ∃ p ∈ exampleNestedParams, p.decodedValue ≠ none :=
    ⟨Param.mk "0".data (some [.mk (.node "transfer".data [.mk "100".data none])]),
      List.mem_cons_self _ _, by simp [Param.decodedValue]⟩
  have hok : ∀ p ∈ exampleNestedParams, ∀ items, p.decodedValue = some items →
      ∀ it ∈ items, ∃ s, data_decoded_to_text it.decodedData = .ok (some s) := by
    intro p hp items hitems it hit
    rcases List.mem_singleton.1 hp with h
    subst h
    simp only [Param.decodedValue, Option.some.injEq] at hitems
    subst hitems
    rcases List.mem_singleton.1 hit with h
    subst h
    exact ⟨"transfer: 100".data, by rfl⟩
  exact ⟨⟨hm, hnested⟩, by rfl,
    (spec_c9_formatter "multiSend".data exampleNestedParams hm hnested hok).2⟩

/-- Counterexample for C9 as stated: a parameter whose nested `decodedValue`
item has a falsy `decodedData` makes the formatter raise `TypeError`
(Python joins over a `None`), so it does not return a string at all. -/
theorem spec_c9_counterexample :
    data_decoded_to_text (.node "multiSend".data
        [.mk "0".data (some [.mk DecodedData.empty])])
      = .error "TypeError".data := by rfl
